import Mathlib

/-!
Verification of the Intelliguard PPE-compliance core: a shallow embedding of
the detection-to-compliance pipeline (`ppe_detector.py`) and of the
face-embedding identification engine (`face_recognition_system.py`),
with theorems settling the specified properties.

Floating-point confidences, distances and coordinates are modelled as
rationals (`ℚ`): every arithmetic operation the code performs on them
(sum, division by a small integer length, multiplication by 0.5,
comparison) is exact in the float range used, so the rational model is
faithful.  External ML libraries (YOLO inference, the `face_recognition`
library, OpenCV drawing primitives) are black boxes to the repository and
are modelled as explicit function parameters.
-/

set_option autoImplicit false

namespace Intelliguard

/-! ### Configuration (`config.py`) -/

/-- Embeds `Config.PPE_CLASSES` from `config.py`. -/
def PPE_CLASSES : List String :=
  ["glove", "goggles", "helmet", "mask", "no-suit", "no_glove",
   "no_goggles", "no_helmet", "no_mask", "no_shoes", "shoes", "suit"]

/-- Embeds `Config.VIOLATION_CLASSES` from `config.py`. -/
def VIOLATION_CLASSES : List String :=
  ["no_glove", "no_goggles", "no_helmet", "no_mask", "no_shoes", "no-suit"]

/-! ### PPE detector data model (`ppe_detector.py`) -/

/-- One raw box from the YOLO inference result: coordinates, confidence
and class id, as extracted in the loop of `PPEDetector.detect_ppe`. -/
structure RawBox where
  x1 : ℚ
  y1 : ℚ
  x2 : ℚ
  y2 : ℚ
  conf : ℚ
  cls : ℕ
deriving DecidableEq, Repr

/-- Embeds the `detection` dict built in `PPEDetector.detect_ppe`. -/
structure Detection where
  class_name : String
  confidence : ℚ
  bbox : ℚ × ℚ × ℚ × ℚ
  width : ℚ
  height : ℚ
deriving DecidableEq, Repr

/-- Embeds the `violation` dict built in `PPEDetector.detect_ppe`. -/
structure Violation where
  violation_type : String
  severity : String
  confidence : ℚ
  bbox_x : ℚ
  bbox_y : ℚ
  bbox_width : ℚ
  bbox_height : ℚ
deriving DecidableEq, Repr

/-- Embeds the result dict returned by `PPEDetector.detect_ppe`. -/
structure DetectResult where
  detections : List Detection
  violations : List Violation
  total_detections : ℕ
  violation_count : ℕ
  compliance_status : String
  average_confidence : ℚ
deriving DecidableEq, Repr

/-- Embeds `PPEDetector.get_violation_severity`: lookup in the
`severity_map` dict with default `MEDIUM` (`dict.get`). -/
def get_violation_severity (violation_type : String) : String :=
  if violation_type = "no_helmet" then "CRITICAL"
  else if violation_type = "no_mask" then "HIGH"
  else if violation_type = "no_goggles" then "MEDIUM"
  else if violation_type = "no_glove" then "MEDIUM"
  else if violation_type = "no_shoes" then "MEDIUM"
  else if violation_type = "no-suit" then "HIGH"
  else "MEDIUM"

/-- Embeds `PPEDetector.get_compliance_status`.  The Python comparison
`len(violations) >= len(detections) * 0.5` is exact float arithmetic on
list lengths, modelled by the same comparison over `ℚ`. -/
def get_compliance_status (detections : List Detection) (violations : List Violation) :
    String :=
  if violations.length = 0 then "COMPLIANT"
  else if (detections.length : ℚ) * (1 / 2) ≤ (violations.length : ℚ) then "VIOLATION"
  else "PARTIAL"

/-- Class-name resolution in `detect_ppe`: the class id indexes
`self.class_names` (= `PPE_CLASSES`) when in range, otherwise the generic
name `object_<id>` is used. -/
def className (cls : ℕ) : String :=
  if cls < PPE_CLASSES.length then PPE_CLASSES.getD cls "" else "object_" ++ toString cls

/-- The `detection` dict built for one raw box in `detect_ppe`. -/
def mkDetection (b : RawBox) : Detection :=
  { class_name := className b.cls
    confidence := b.conf
    bbox := (b.x1, b.y1, b.x2, b.y2)
    width := b.x2 - b.x1
    height := b.y2 - b.y1 }

/-- The `violation` dict built for one raw box in `detect_ppe` (only for
boxes whose class name is in `VIOLATION_CLASSES`). -/
def mkViolation (b : RawBox) : Violation :=
  { violation_type := className b.cls
    severity := get_violation_severity (className b.cls)
    confidence := b.conf
    bbox_x := b.x1
    bbox_y := b.y1
    bbox_width := b.x2 - b.x1
    bbox_height := b.y2 - b.y1 }

/-- The `violation` dict expressed as a function of the corresponding
`detection` dict; used to state that the violations list is the mapped
filtration of the detections list. -/
def detectionToViolation (d : Detection) : Violation :=
  { violation_type := d.class_name
    severity := get_violation_severity d.class_name
    confidence := d.confidence
    bbox_x := d.bbox.1
    bbox_y := d.bbox.2.1
    bbox_width := d.width
    bbox_height := d.height }

/-- Embeds `PPEDetector.detect_ppe`.  The upstream model inference
(`self.model(image, conf=...)` plus the box unpacking) is the black box;
its outcome is either the list of raw boxes it produced or an exception
(`Except.error`), in which case the `except` clause returns the `ERROR`
fallback dict.  The loop appending to `detections` and `violations` in
input order is rendered as `map` and `filter`+`map`. -/
def detect_ppe (inference : Except String (List RawBox)) : DetectResult :=
  match inference with
  | .error _ =>
      { detections := []
        violations := []
        total_detections := 0
        violation_count := 0
        compliance_status := "ERROR"
        average_confidence := 0 }
  | .ok boxes =>
      let detections := boxes.map mkDetection
      let violations :=
        (boxes.filter (fun b => className b.cls ∈ VIOLATION_CLASSES)).map mkViolation
      { detections := detections
        violations := violations
        total_detections := detections.length
        violation_count := violations.length
        compliance_status := get_compliance_status detections violations
        average_confidence :=
          if detections.isEmpty then 0
          else (detections.map Detection.confidence).sum / (detections.length : ℚ) }

/-! ### Face recognition system (`face_recognition_system.py`) -/

/-- Modelled from the spec: the external `face_recognition` library (not
part of the repository) produces fixed-length face encodings,
128-dimensional in the reference model. -/
def Embedding : Type := { l : List ℚ // l.length = 128 }

instance : DecidableEq Embedding := fun a b =>
  decidable_of_iff (a.val = b.val) Subtype.ext_iff.symm

/-- Black-box interface of the `face_recognition` library calls made by
`encode_face_from_image` and `recognize_face`: `face_locations` finds
faces in an image, `face_encodings` computes one encoding per located
face (possibly fewer, which the code defends against).  Image decoding
and colour conversion are absorbed into the abstract image type. -/
structure FaceOracle (Img Loc : Type) where
  face_locations : Img → List Loc
  face_encodings : Img → List Loc → List Embedding

/-- Embeds the mutable state of `FaceRecognitionSystem`: the two parallel
registry lists and the match tolerance. -/
structure FaceRecognitionSystem where
  known_face_encodings : List (List ℚ)
  known_face_names : List String
  tolerance : ℚ
deriving DecidableEq, Repr

/-- Embeds `FaceRecognitionSystem.__init__`: empty registry, tolerance 0.6. -/
def FaceRecognitionSystem.init : FaceRecognitionSystem :=
  { known_face_encodings := []
    known_face_names := []
    tolerance := 3 / 5 }

/-- Embeds the result of `FaceRecognitionSystem.recognize_face` on
success: the dict with username, confidence and the first face location. -/
structure FaceMatch (Loc : Type) where
  username : String
  confidence : ℚ
  face_location : Loc

/-- Embeds `face_recognition.face_distance`: the vector of distances from
the query encoding to every known encoding.  The metric itself
(a Euclidean norm in the library) is a black-box parameter `dist`. -/
def face_distance (dist : List ℚ → List ℚ → ℚ)
    (known : List (List ℚ)) (e : List ℚ) : List ℚ :=
  known.map (fun k => dist k e)

/-- Embeds `face_recognition.compare_faces`: elementwise
`distance ≤ tolerance` over the distance vector. -/
def compare_faces (dist : List ℚ → List ℚ → ℚ)
    (known : List (List ℚ)) (e : List ℚ) (tolerance : ℚ) : List Bool :=
  (face_distance dist known e).map (fun d => decide (d ≤ tolerance))

/-- Embeds `np.argmin`: index of the first minimal element. -/
def argmin (l : List ℚ) : ℕ :=
  match l.min? with
  | none => 0
  | some m => l.indexOf m

/-- The body of the `for face_encoding in face_encodings` loop of
`recognize_face` for one query encoding: compare against the registry,
and when some comparison succeeds take the argmin of the distances and
return its index together with its distance. -/
def matchOne (sys : FaceRecognitionSystem) (dist : List ℚ → List ℚ → ℚ)
    (e : List ℚ) : Option (ℕ × ℚ) :=
  let matchFlags := compare_faces dist sys.known_face_encodings e sys.tolerance
  let face_distances := face_distance dist sys.known_face_encodings e
  if true ∈ matchFlags then
    let best_match_index := argmin face_distances
    if matchFlags.getD best_match_index false then
      some (best_match_index, face_distances.getD best_match_index 0)
    else none
  else none

/-- The `for` loop of `recognize_face` over all query encodings: the
first encoding that produces a match returns it. -/
def findMatch (sys : FaceRecognitionSystem) (dist : List ℚ → List ℚ → ℚ) :
    List (List ℚ) → Option (ℕ × ℚ)
  | [] => none
  | e :: rest =>
      match matchOne sys dist e with
      | some r => some r
      | none => findMatch sys dist rest

/-- Embeds `FaceRecognitionSystem.recognize_face`.  Mirrors the source
control flow: no locations ⇒ "No face detected"; no encodings ⇒ "Could
not extract face features"; otherwise loop over encodings and on a match
return the username at the best index, confidence `1 - distance`, and
`face_locations[0]`; if no encoding matches, "Face not recognized". -/
def recognize_face {Img Loc : Type} (sys : FaceRecognitionSystem)
    (O : FaceOracle Img Loc) (dist : List ℚ → List ℚ → ℚ) (image : Img) :
    Option (FaceMatch Loc) × String :=
  match O.face_locations image with
  | [] => (none, "No face detected")
  | l0 :: rest =>
      let face_encodings := O.face_encodings image (l0 :: rest)
      if face_encodings.isEmpty then (none, "Could not extract face features")
      else
        match findMatch sys dist (face_encodings.map Subtype.val) with
        | some (best_match_index, d) =>
            (some { username := sys.known_face_names.getD best_match_index ""
                    confidence := 1 - d
                    face_location := l0 },
             "Face recognized successfully")
        | none => (none, "Face not recognized")

/-- Embeds `FaceRecognitionSystem.encode_face_from_image`: zero located
faces, more than one located face, and empty encoding list each yield
their reason string; otherwise the first encoding is returned as a plain
list (`tolist`). -/
def encode_face_from_image {Img Loc : Type} (O : FaceOracle Img Loc)
    (image : Img) : Option (List ℚ) × String :=
  match O.face_locations image with
  | [] => (none, "No face detected in the image")
  | [l] =>
      match O.face_encodings image [l] with
      | [] => (none, "Could not extract face features")
      | e :: _ => (some e.val, "Face encoded successfully")
  | _ :: _ :: _ =>
      (none, "Multiple faces detected. Please ensure only one face is visible")

/-- Embeds the `Employee` rows consumed by `load_known_faces`: the
username and the optional stored `face_encoding` JSON string. -/
structure Employee where
  username : String
  face_encoding : Option String
deriving DecidableEq, Repr

/-- The per-employee step of `load_known_faces`: skip when
`employee.face_encoding` is falsy (None or the empty string) or when
`json.loads` fails (`parse` returns `none`); otherwise append the parsed
encoding and the username to the two registry lists. -/
def loadStep (parse : String → Option (List ℚ)) (sys : FaceRecognitionSystem)
    (employee : Employee) : FaceRecognitionSystem :=
  match employee.face_encoding with
  | none => sys
  | some s =>
      if s = "" then sys
      else
        match parse s with
        | none => sys
        | some encoding =>
            { sys with
              known_face_encodings := sys.known_face_encodings ++ [encoding]
              known_face_names := sys.known_face_names ++ [employee.username] }

/-- Embeds `FaceRecognitionSystem.load_known_faces`: both registry lists
are reset to empty, then each employee with a parsable stored encoding is
appended.  `json.loads` is the black-box `parse` parameter. -/
def load_known_faces (parse : String → Option (List ℚ))
    (sys : FaceRecognitionSystem) (employees : List Employee) :
    FaceRecognitionSystem :=
  employees.foldl (loadStep parse)
    { sys with known_face_encodings := [], known_face_names := [] }

/-- The skip-or-parse outcome for one employee, used to characterise the
registry produced by `load_known_faces`. -/
def parsedEncoding (parse : String → Option (List ℚ)) (employee : Employee) :
    Option (List ℚ) :=
  match employee.face_encoding with
  | none => none
  | some s => if s = "" then none else parse s

/-! ### Drawing utilities (`draw_detections` and `draw_face_rectangle`) -/

/-- Python `int()` truncation toward zero applied to a coordinate. -/
def pyInt (q : ℚ) : ℤ :=
  Int.tdiv q.num (q.den : ℤ)

/-- Black-box OpenCV drawing primitives used by the two rendering
utilities.  Each in-place primitive (`cv2.rectangle`, `cv2.putText`) is
modelled as a function from buffer contents to buffer contents; text
measurement and the `:.2f` confidence formatting are abstract as well. -/
structure Cv2Prims (Img : Type) where
  rectangle : Img → ℤ × ℤ → ℤ × ℤ → ℕ × ℕ × ℕ → ℤ → Img
  putText : Img → String → ℤ × ℤ → ℚ → ℕ × ℕ × ℕ → ℕ → Img
  getTextSize : String → ℚ → ℕ → ℤ × ℤ
  fmtConf : ℚ → String

/-- The body of the `for detection in detections` loop of
`PPEDetector.draw_detections`, drawing one detection onto a buffer. -/
def drawOneDetection {Img : Type} (cv : Cv2Prims Img) (img : Img)
    (d : Detection) : Img :=
  let x1 := pyInt d.bbox.1
  let y1 := pyInt d.bbox.2.1
  let x2 := pyInt d.bbox.2.2.1
  let y2 := pyInt d.bbox.2.2.2
  let color : ℕ × ℕ × ℕ :=
    if d.class_name ∈ VIOLATION_CLASSES then (255, 0, 0) else (0, 255, 0)
  let img1 := cv.rectangle img (x1, y1) (x2, y2) color 2
  let label := d.class_name ++ ": " ++ cv.fmtConf d.confidence
  let label_size := cv.getTextSize label (1 / 2) 2
  let img2 := cv.rectangle img1 (x1, y1 - label_size.2 - 10) (x1 + label_size.1, y1)
    color (-1)
  cv.putText img2 label (x1, y1 - 5) (1 / 2) (255, 255, 255) 2

/-- Embeds `PPEDetector.draw_detections`.  The result pair is
(returned image, contents of the caller's buffer after the call): the
source first takes `image_copy = image.copy()` and draws only on the
copy, so the caller's buffer still holds `image` afterwards. -/
def draw_detections {Img : Type} (cv : Cv2Prims Img) (image : Img)
    (detections : List Detection) : Img × Img :=
  let image_copy := image
  (detections.foldl (drawOneDetection cv) image_copy, image)

/-- Embeds `FaceRecognitionSystem.draw_face_rectangle`.  The result pair
is (returned image, contents of the caller's buffer after the call): the
source draws directly on the passed image (no copy), so the caller's
buffer holds the annotated image that is returned.  The tuple unpacking
order of `face_location` is (top, right, bottom, left); `cv2.FILLED`
is the thickness value `-1`. -/
def draw_face_rectangle {Img : Type} (cv : Cv2Prims Img) (image : Img)
    (face_location : ℤ × ℤ × ℤ × ℤ) (name : String) (confidence : ℚ) :
    Img × Img :=
  let top := face_location.1
  let right := face_location.2.1
  let bottom := face_location.2.2.1
  let left := face_location.2.2.2
  let img1 := cv.rectangle image (left, top) (right, bottom) (0, 255, 0) 2
  let label := name ++ " (" ++ cv.fmtConf confidence ++ ")"
  let img2 := cv.rectangle img1 (left, bottom - 25) (right, bottom) (0, 255, 0) (-1)
  let img3 := cv.putText img2 label (left + 6, bottom - 6) (3 / 5) (255, 255, 255) 1
  (img3, img3)

/-! ### Concrete instances used to evaluate the theorems -/

/-- A concrete 128-dimensional embedding (all zeroes). -/
def zeroEmbedding : Embedding :=
  ⟨List.replicate 128 0, by simp⟩

/-- A concrete oracle that locates one face and computes one encoding. -/
def oneFaceOracle : FaceOracle Unit Unit :=
  { face_locations := fun _ => [()]
    face_encodings := fun _ _ => [zeroEmbedding] }

/-- A concrete oracle that locates one face but computes no encoding
(the feature-extraction failure case). -/
def extractFailOracle : FaceOracle Unit Unit :=
  { face_locations := fun _ => [()]
    face_encodings := fun _ _ => [] }

/-- A concrete oracle that locates no face at all. -/
def noFaceOracle : FaceOracle Unit Unit :=
  { face_locations := fun _ => []
    face_encodings := fun _ _ => [] }

/-- A concrete distance oracle: every distance is 0.4, the distance used
in the spec's worked example (tolerance 0.6 ⇒ confidence 0.6). -/
def constDist : List ℚ → List ℚ → ℚ :=
  fun _ _ => 2 / 5

/-- A concrete registry with the single identity `alice`. -/
def aliceSystem : FaceRecognitionSystem :=
  { known_face_encodings := [[1]]
    known_face_names := ["alice"]
    tolerance := 3 / 5 }

/-- A concrete JSON parser accepting exactly the string "[1]". -/
def parseOne : String → Option (List ℚ) :=
  fun s => if s = "[1]" then some [1] else none

/-- Concrete drawing primitives over `ℕ`-valued buffers that count the
drawing operations applied, so that an in-place drawing call visibly
changes the buffer contents. -/
def countingCv2 : Cv2Prims ℕ :=
  { rectangle := fun img _ _ _ _ => img + 1
    putText := fun img _ _ _ _ _ => img + 1
    getTextSize := fun _ _ _ => (0, 0)
    fmtConf := fun _ => "" }

/-! ## Theorems: detection classifier -/

/-- The violation dict built from a raw box is the violation dict derived
from the detection dict of the same box. -/
theorem detectionToViolation_mkDetection (b : RawBox) :
    detectionToViolation (mkDetection b) = mkViolation b := rfl

/-- Specification of `get_compliance_status` under the pipeline invariant
that violations are a sub-collection of detections. -/
theorem get_compliance_status_spec (D : List Detection) (V : List Violation)
    (h : V.length ≤ D.length) :
    (get_compliance_status D V = "COMPLIANT" ↔ V.length = 0)
  ∧ (get_compliance_status D V = "VIOLATION" ↔
      ((D.length : ℚ) * (1 / 2) ≤ (V.length : ℚ) ∧ 0 < D.length))
  ∧ (get_compliance_status D V = "PARTIAL" ↔
      (V.length ≠ 0 ∧ (V.length : ℚ) < (D.length : ℚ) * (1 / 2))) := by
  unfold get_compliance_status
  split_ifs with h1 h2
  · refine ⟨⟨fun _ => h1, fun _ => rfl⟩, ⟨fun hc => absurd hc (by decide), ?_⟩,
      ⟨fun hc => absurd hc (by decide), fun hp => absurd h1 hp.1⟩⟩
    rintro ⟨hle, hD⟩
    rw [h1] at hle
    push_cast at hle
    have hD' : (0 : ℚ) < (D.length : ℚ) := by exact_mod_cast hD
    linarith
  · refine ⟨⟨fun hc => absurd hc (by decide), fun hv => absurd hv h1⟩,
      ⟨fun _ => ⟨h2, ?_⟩, fun _ => rfl⟩,
      ⟨fun hc => absurd hc (by decide), fun hp => absurd h2 (not_le.mpr hp.2)⟩⟩
    exact lt_of_lt_of_le (Nat.pos_of_ne_zero h1) h
  · exact ⟨⟨fun hc => absurd hc (by decide), fun hv => absurd hv h1⟩,
      ⟨fun hc => absurd hc (by decide), fun hv => absurd hv.1 h2⟩,
      ⟨fun _ => ⟨h1, not_le.mp h2⟩, fun _ => rfl⟩⟩

/-- C1: the compliance status of a classification is COMPLIANT exactly
when there are no violations, VIOLATION exactly when the violation count
reaches half of a positive detection total, and PARTIAL exactly
otherwise; an empty detection list yields COMPLIANT and the exact 50%
boundary (one violation among two detections) yields VIOLATION. -/
theorem detect_ppe_compliance_status_iff (boxes : List RawBox) :
    ((detect_ppe (.ok boxes)).compliance_status = "COMPLIANT" ↔
      (detect_ppe (.ok boxes)).violation_count = 0)
  ∧ ((detect_ppe (.ok boxes)).compliance_status = "VIOLATION" ↔
      (((detect_ppe (.ok boxes)).total_detections : ℚ) * (1 / 2) ≤
          ((detect_ppe (.ok boxes)).violation_count : ℚ) ∧
        0 < (detect_ppe (.ok boxes)).total_detections))
  ∧ ((detect_ppe (.ok boxes)).compliance_status = "PARTIAL" ↔
      ((detect_ppe (.ok boxes)).violation_count ≠ 0 ∧
        ((detect_ppe (.ok boxes)).violation_count : ℚ) <
          ((detect_ppe (.ok boxes)).total_detections : ℚ) * (1 / 2)))
  ∧ (detect_ppe (.ok ([] : List RawBox))).compliance_status = "COMPLIANT"
  ∧ (detect_ppe
      (.ok [⟨0, 0, 1, 1, 9 / 10, 2⟩, ⟨0, 0, 1, 1, 8 / 10, 8⟩])).compliance_status =
      "VIOLATION" := by
  have h : ((boxes.filter
        (fun b => className b.cls ∈ VIOLATION_CLASSES)).map mkViolation).length ≤
      (boxes.map mkDetection).length := by
    simp only [List.length_map]
    exact List.length_filter_le _ _
  have spec := get_compliance_status_spec (boxes.map mkDetection)
    ((boxes.filter (fun b => className b.cls ∈ VIOLATION_CLASSES)).map mkViolation) h
  refine ⟨spec.1, spec.2.1, spec.2.2, by decide, ?_⟩
  norm_num [detect_ppe, get_compliance_status, className, PPE_CLASSES,
    VIOLATION_CLASSES, List.getD_cons_zero, List.getD_cons_succ, List.filter_cons]
  simp

/-- Witness for C1: the COMPLIANT case evaluated on the empty detection
list. -/
theorem detect_ppe_compliance_status_iff_witness :
    (detect_ppe (.ok ([] : List RawBox))).violation_count = 0 :=
  (detect_ppe_compliance_status_iff []).1.mp
    (detect_ppe_compliance_status_iff []).2.2.2.1

/-- C2: the severity lookup is a total deterministic function mapping
`no_helmet` to CRITICAL, `no_mask` and `no-suit` to HIGH, the remaining
violation classes to MEDIUM, and every other string to MEDIUM. -/
theorem get_violation_severity_spec :
    (∀ s, get_violation_severity s ∈ (["CRITICAL", "HIGH", "MEDIUM"] : List String))
  ∧ get_violation_severity "no_helmet" = "CRITICAL"
  ∧ get_violation_severity "no_mask" = "HIGH"
  ∧ get_violation_severity "no-suit" = "HIGH"
  ∧ get_violation_severity "no_goggles" = "MEDIUM"
  ∧ get_violation_severity "no_glove" = "MEDIUM"
  ∧ get_violation_severity "no_shoes" = "MEDIUM"
  ∧ ∀ s, s ∉ VIOLATION_CLASSES → get_violation_severity s = "MEDIUM" := by
  refine ⟨?_, by decide, by decide, by decide, by decide, by decide, by decide, ?_⟩
  · intro s
    unfold get_violation_severity
    split_ifs <;> simp
  · intro s hs
    simp only [VIOLATION_CLASSES, List.mem_cons, List.not_mem_nil, or_false,
      not_or] at hs
    unfold get_violation_severity
    split_ifs <;> simp_all

/-- Witness for C2: a string outside the violation vocabulary maps to
MEDIUM. -/
theorem get_violation_severity_spec_witness :
    ("helmet" ∉ VIOLATION_CLASSES) ∧ get_violation_severity "helmet" = "MEDIUM" :=
  ⟨by decide, get_violation_severity_spec.2.2.2.2.2.2.2 "helmet" (by decide)⟩

/-- C3: when the upstream inference raises, `detect_ppe` returns the
ERROR verdict with empty lists and zeroed counts, and this is the only
way the ERROR status can arise. -/
theorem detect_ppe_error_fallback :
    (∀ e : String, detect_ppe (.error e) =
      { detections := []
        violations := []
        total_detections := 0
        violation_count := 0
        compliance_status := "ERROR"
        average_confidence := 0 })
  ∧ (∀ boxes : List RawBox, (detect_ppe (.ok boxes)).compliance_status ≠ "ERROR") := by
  constructor
  · intro e
    rfl
  · intro boxes
    show get_compliance_status _ _ ≠ "ERROR"
    unfold get_compliance_status
    split_ifs <;> decide

/-- Witness for C3: the ERROR fallback evaluated at a concrete exception. -/
theorem detect_ppe_error_fallback_witness :
    detect_ppe (.error "inference failed") =
      { detections := []
        violations := []
        total_detections := 0
        violation_count := 0
        compliance_status := "ERROR"
        average_confidence := 0 } :=
  detect_ppe_error_fallback.1 "inference failed"

/-- C7: the reported average confidence is the arithmetic mean of the
confidences of all constructed detections, and 0 for an empty detection
list. -/
theorem detect_ppe_average_confidence (boxes : List RawBox) :
    (boxes ≠ [] →
      (detect_ppe (.ok boxes)).average_confidence =
        ((detect_ppe (.ok boxes)).detections.map Detection.confidence).sum /
          ((detect_ppe (.ok boxes)).total_detections : ℚ))
  ∧ (boxes = [] → (detect_ppe (.ok boxes)).average_confidence = 0) := by
  constructor
  · intro hne
    have hne' : ¬((boxes.map mkDetection).isEmpty = true) := by
      simp [hne]
    show (if (boxes.map mkDetection).isEmpty then (0 : ℚ)
        else ((boxes.map mkDetection).map Detection.confidence).sum /
          ((boxes.map mkDetection).length : ℚ)) = _
    rw [if_neg hne']
    rfl
  · intro h
    subst h
    rfl

/-- Witness for C7: a singleton detection list has average confidence
equal to its single confidence, via the mean formula. -/
theorem detect_ppe_average_confidence_witness :
    ([(⟨0, 0, 1, 1, 1 / 2, 2⟩ : RawBox)] ≠ []) ∧
    (detect_ppe (.ok [(⟨0, 0, 1, 1, 1 / 2, 2⟩ : RawBox)])).average_confidence =
      ((detect_ppe (.ok [(⟨0, 0, 1, 1, 1 / 2, 2⟩ : RawBox)])).detections.map
          Detection.confidence).sum /
        ((detect_ppe (.ok [(⟨0, 0, 1, 1, 1 / 2, 2⟩ : RawBox)])).total_detections : ℚ) :=
  ⟨List.cons_ne_nil _ _,
    (detect_ppe_average_confidence _).1 (List.cons_ne_nil _ _)⟩

/-- The computed or generic class name of a raw box. -/
theorem mkDetection_class_name (b : RawBox) :
    (mkDetection b).class_name = className b.cls := rfl

/-- A generic `object_<id>` class name is never in the violation
vocabulary. -/
theorem object_class_not_violation (s : String) :
    ("object_" ++ s) ∉ VIOLATION_CLASSES := by
  intro hmem
  simp only [VIOLATION_CLASSES, List.mem_cons, List.not_mem_nil, or_false] at hmem
  rcases hmem with h | h | h | h | h | h <;>
    simpa using congrArg (fun t => t.data.head?) h

/-- C10: in a non-error verdict the violations list is exactly the
order-preserving filtration of the detections list by membership of the
class name in the violation vocabulary, so the violation count never
exceeds the detection total, every violation type is in the vocabulary,
and a generic `object_<id>` class name is never counted as a violation. -/
theorem detect_ppe_violations_characterisation (boxes : List RawBox) :
    ((detect_ppe (.ok boxes)).violations =
      ((detect_ppe (.ok boxes)).detections.filter
        (fun d => d.class_name ∈ VIOLATION_CLASSES)).map detectionToViolation)
  ∧ (detect_ppe (.ok boxes)).violation_count ≤ (detect_ppe (.ok boxes)).total_detections
  ∧ (∀ v ∈ (detect_ppe (.ok boxes)).violations, v.violation_type ∈ VIOLATION_CLASSES)
  ∧ (∀ b : RawBox, PPE_CLASSES.length ≤ b.cls →
      (mkDetection b).class_name ∉ VIOLATION_CLASSES) := by
  refine ⟨?_, ?_, ?_, ?_⟩
  · show (boxes.filter (fun b => className b.cls ∈ VIOLATION_CLASSES)).map mkViolation =
      ((boxes.map mkDetection).filter
        (fun d => d.class_name ∈ VIOLATION_CLASSES)).map detectionToViolation
    rw [List.filter_map, List.map_map]
    rfl
  · show ((boxes.filter (fun b => className b.cls ∈ VIOLATION_CLASSES)).map
        mkViolation).length ≤ (boxes.map mkDetection).length
    simp only [List.length_map]
    exact List.length_filter_le _ _
  · intro v hv
    have hv' : v ∈ (boxes.filter
        (fun b => className b.cls ∈ VIOLATION_CLASSES)).map mkViolation := hv
    rw [List.mem_map] at hv'
    obtain ⟨b, hb, rfl⟩ := hv'
    rw [List.mem_filter] at hb
    exact of_decide_eq_true hb.2
  · intro b hb
    rw [mkDetection_class_name]
    unfold className
    rw [if_neg (not_lt.mpr hb)]
    exact object_class_not_violation _

/-- Witness for C10: an out-of-vocabulary class id is not a violation,
and the violation count is bounded on a concrete input. -/
theorem detect_ppe_violations_characterisation_witness :
    (PPE_CLASSES.length ≤ 99 ∧
      (mkDetection ⟨0, 0, 1, 1, 1 / 2, 99⟩).class_name ∉ VIOLATION_CLASSES) ∧
    (detect_ppe (.ok [(⟨0, 0, 1, 1, 1 / 2, 99⟩ : RawBox)])).violation_count ≤
      (detect_ppe (.ok [(⟨0, 0, 1, 1, 1 / 2, 99⟩ : RawBox)])).total_detections :=
  ⟨⟨by decide,
      (detect_ppe_violations_characterisation []).2.2.2 ⟨0, 0, 1, 1, 1 / 2, 99⟩
        (by decide)⟩,
    (detect_ppe_violations_characterisation [⟨0, 0, 1, 1, 1 / 2, 99⟩]).2.1⟩

/-! ## Theorems: face recognition -/

/-- A nonempty distance list has its argmin inside the list. -/
theorem argmin_lt_length (l : List ℚ) (h : l ≠ []) : argmin l < l.length := by
  unfold argmin
  cases hm : l.min? with
  | none => exact absurd (List.min?_eq_none_iff.mp hm) h
  | some m => exact List.indexOf_lt_length.mpr (List.min?_mem min_choice hm)

/-- The entry at the argmin of a nonempty distance list is a lower bound
for every entry. -/
theorem argmin_getD_le (l : List ℚ) (h : l ≠ []) (j : ℕ) (hj : j < l.length) :
    l.getD (argmin l) 0 ≤ l.getD j 0 := by
  unfold argmin
  cases hm : l.min? with
  | none => exact absurd (List.min?_eq_none_iff.mp hm) h
  | some m =>
      have hmem : m ∈ l := List.min?_mem min_choice hm
      have hidx : l.indexOf m < l.length := List.indexOf_lt_length.mpr hmem
      rw [List.getD_eq_getElem _ _ hidx, List.getD_eq_getElem _ _ hj,
        List.getElem_indexOf hidx]
      exact (List.le_min?_iff (fun _ _ _ => le_min_iff) hm).1 (le_refl m) _
        (List.getElem_mem hj)

/-- The comparison vector contains `true` exactly when some distance is
within tolerance. -/
theorem true_mem_compare_faces (dist : List ℚ → List ℚ → ℚ)
    (known : List (List ℚ)) (e : List ℚ) (tol : ℚ) :
    true ∈ compare_faces dist known e tol ↔
      ∃ d ∈ face_distance dist known e, d ≤ tol := by
  unfold compare_faces
  simp

/-- When some distance is within tolerance, the per-encoding match step
returns the argmin index together with its distance, the index is inside
the registry, and the selected distance is within tolerance. -/
theorem matchOne_spec (sys : FaceRecognitionSystem)
    (dist : List ℚ → List ℚ → ℚ) (e : List ℚ)
    (hm : ∃ d ∈ face_distance dist sys.known_face_encodings e, d ≤ sys.tolerance) :
    matchOne sys dist e =
      some (argmin (face_distance dist sys.known_face_encodings e),
        (face_distance dist sys.known_face_encodings e).getD
          (argmin (face_distance dist sys.known_face_encodings e)) 0)
  ∧ argmin (face_distance dist sys.known_face_encodings e) <
      sys.known_face_encodings.length
  ∧ (face_distance dist sys.known_face_encodings e).getD
      (argmin (face_distance dist sys.known_face_encodings e)) 0 ≤ sys.tolerance := by
  have hne : face_distance dist sys.known_face_encodings e ≠ [] := by
    obtain ⟨d, hd, -⟩ := hm
    exact List.ne_nil_of_mem hd
  have hlt : argmin (face_distance dist sys.known_face_encodings e) <
      (face_distance dist sys.known_face_encodings e).length :=
    argmin_lt_length _ hne
  have hDlen : (face_distance dist sys.known_face_encodings e).length =
      sys.known_face_encodings.length := by
    simp [face_distance]
  have hbound : (face_distance dist sys.known_face_encodings e).getD
      (argmin (face_distance dist sys.known_face_encodings e)) 0 ≤ sys.tolerance := by
    obtain ⟨d0, hd0, hd0le⟩ := hm
    obtain ⟨j, hj, hget⟩ := List.mem_iff_getElem.mp hd0
    calc (face_distance dist sys.known_face_encodings e).getD
          (argmin (face_distance dist sys.known_face_encodings e)) 0 ≤
        (face_distance dist sys.known_face_encodings e).getD j 0 :=
          argmin_getD_le _ hne j hj
      _ = d0 := by rw [List.getD_eq_getElem _ _ hj, hget]
      _ ≤ sys.tolerance := hd0le
  have htrue : true ∈ compare_faces dist sys.known_face_encodings e sys.tolerance :=
    (true_mem_compare_faces dist sys.known_face_encodings e sys.tolerance).mpr hm
  have hflag : (compare_faces dist sys.known_face_encodings e sys.tolerance).getD
      (argmin (face_distance dist sys.known_face_encodings e)) false = true := by
    unfold compare_faces
    have hlt' : argmin (face_distance dist sys.known_face_encodings e) <
        ((face_distance dist sys.known_face_encodings e).map
          (fun d => decide (d ≤ sys.tolerance))).length := by
      simpa using hlt
    rw [List.getD_eq_getElem _ _ hlt', List.getElem_map]
    rw [decide_eq_true_eq]
    rw [← List.getD_eq_getElem _ (0 : ℚ) hlt]
    exact hbound
  refine ⟨?_, by rw [← hDlen]; exact hlt, hbound⟩
  simp only [matchOne]
  rw [if_pos htrue, if_pos hflag]

/-- C4: when the registry has an entry within tolerance of the single
computed query encoding, `recognize_face` succeeds with the entry whose
distance is minimal among the within-tolerance candidates, and the
confidence equals one minus that distance. -/
theorem recognize_face_min_distance_match {Img Loc : Type}
    (sys : FaceRecognitionSystem) (O : FaceOracle Img Loc)
    (dist : List ℚ → List ℚ → ℚ) (image : Img) (e : Embedding)
    (l0 : Loc) (ls : List Loc)
    (hloc : O.face_locations image = l0 :: ls)
    (henc : O.face_encodings image (l0 :: ls) = [e])
    (hmatch : ∃ d ∈ face_distance dist sys.known_face_encodings e.val,
      d ≤ sys.tolerance) :
    ∃ i : ℕ, i < sys.known_face_encodings.length ∧
      recognize_face sys O dist image =
        (some { username := sys.known_face_names.getD i ""
                confidence :=
                  1 - (face_distance dist sys.known_face_encodings e.val).getD i 0
                face_location := l0 },
          "Face recognized successfully") ∧
      (face_distance dist sys.known_face_encodings e.val).getD i 0 ≤ sys.tolerance ∧
      ∀ j, j < (face_distance dist sys.known_face_encodings e.val).length →
        (face_distance dist sys.known_face_encodings e.val).getD j 0 ≤ sys.tolerance →
        (face_distance dist sys.known_face_encodings e.val).getD i 0 ≤
          (face_distance dist sys.known_face_encodings e.val).getD j 0 := by
  obtain ⟨hOne, hlt, hbound⟩ := matchOne_spec sys dist e.val hmatch
  have hne : face_distance dist sys.known_face_encodings e.val ≠ [] := by
    obtain ⟨d, hd, -⟩ := hmatch
    exact List.ne_nil_of_mem hd
  refine ⟨argmin (face_distance dist sys.known_face_encodings e.val), hlt, ?_,
    hbound, fun j hj _ => argmin_getD_le _ hne j hj⟩
  simp only [recognize_face, hloc, henc, List.isEmpty_cons, Bool.false_eq_true,
    if_false, List.map_cons, List.map_nil]
  simp only [findMatch, hOne]

/-- Witness for C4: the spec's worked example — single enrolled identity
`alice`, distance 0.4, tolerance 0.6 — recognized with confidence 0.6. -/
theorem recognize_face_min_distance_match_witness :
    recognize_face aliceSystem oneFaceOracle constDist () =
      (some { username := "alice", confidence := 3 / 5, face_location := () },
        "Face recognized successfully") := by
  obtain ⟨i, hi, heq, -, -⟩ :=
    recognize_face_min_distance_match aliceSystem oneFaceOracle constDist ()
      zeroEmbedding () [] rfl rfl
      ⟨2 / 5, by simp [face_distance, constDist, aliceSystem], by norm_num [aliceSystem]⟩
  have hi0 : i = 0 := by
    have : i < 1 := by simpa [aliceSystem] using hi
    omega
  subst hi0
  rw [heq]
  norm_num [aliceSystem, face_distance, constDist]

/-- C5: `encode_face_from_image` fails with the no-face reason on zero
located faces, with the multiple-faces reason on more than one located
face, with the feature-extraction reason when a single location yields no
encoding, and otherwise succeeds with the first computed 128-dimensional
encoding; these four reason strings are the only outcomes and are
pairwise distinct. -/
theorem encode_face_from_image_cases {Img Loc : Type} (O : FaceOracle Img Loc)
    (image : Img) :
    (O.face_locations image = [] →
      encode_face_from_image O image = (none, "No face detected in the image"))
  ∧ (1 < (O.face_locations image).length →
      encode_face_from_image O image =
        (none, "Multiple faces detected. Please ensure only one face is visible"))
  ∧ (∀ l, O.face_locations image = [l] → O.face_encodings image [l] = [] →
      encode_face_from_image O image = (none, "Could not extract face features"))
  ∧ (∀ l e es, O.face_locations image = [l] → O.face_encodings image [l] = e :: es →
      encode_face_from_image O image = (some e.val, "Face encoded successfully") ∧
        e.val.length = 128)
  ∧ ((encode_face_from_image O image).2 = "No face detected in the image" ∨
      (encode_face_from_image O image).2 =
        "Multiple faces detected. Please ensure only one face is visible" ∨
      (encode_face_from_image O image).2 = "Could not extract face features" ∨
      (encode_face_from_image O image).2 = "Face encoded successfully")
  ∧ List.Pairwise (fun a b => a ≠ b)
      ["No face detected in the image",
        "Multiple faces detected. Please ensure only one face is visible",
        "Could not extract face features", "Face encoded successfully"] := by
  refine ⟨?_, ?_, ?_, ?_, ?_, by decide⟩
  · intro h
    simp only [encode_face_from_image, h]
  · intro h
    rcases hl : O.face_locations image with - | ⟨l1, - | ⟨l2, rest⟩⟩
    · rw [hl] at h
      simp at h
    · rw [hl] at h
      simp at h
    · simp only [encode_face_from_image, hl]
  · intro l hl he
    simp only [encode_face_from_image, hl, he]
  · intro l e es hl he
    exact ⟨by simp only [encode_face_from_image, hl, he], e.prop⟩
  · rcases hl : O.face_locations image with - | ⟨l1, - | ⟨l2, rest⟩⟩
    · left
      simp [encode_face_from_image, hl]
    · cases he : O.face_encodings image [l1] with
      | nil =>
          right; right; left
          simp [encode_face_from_image, hl, he]
      | cons e es =>
          right; right; right
          simp [encode_face_from_image, hl, he]
    · right; left
      simp [encode_face_from_image, hl]

/-- Witness for C5: the no-face and extraction-failure outcomes on
concrete oracles. -/
theorem encode_face_from_image_cases_witness :
    encode_face_from_image noFaceOracle () = (none, "No face detected in the image") ∧
    encode_face_from_image extractFailOracle () =
      (none, "Could not extract face features") :=
  ⟨(encode_face_from_image_cases noFaceOracle ()).1 rfl,
    (encode_face_from_image_cases extractFailOracle ()).2.2.1 () rfl rfl⟩

/-- An empty registry makes the per-encoding match step fail. -/
theorem matchOne_empty_registry (sys : FaceRecognitionSystem)
    (dist : List ℚ → List ℚ → ℚ) (e : List ℚ)
    (hreg : sys.known_face_encodings = []) : matchOne sys dist e = none := by
  simp [matchOne, compare_faces, face_distance, hreg]

/-- An empty registry makes the whole match loop fail. -/
theorem findMatch_empty_registry (sys : FaceRecognitionSystem)
    (dist : List ℚ → List ℚ → ℚ)
    (hreg : sys.known_face_encodings = []) :
    ∀ es : List (List ℚ), findMatch sys dist es = none := by
  intro es
  induction es with
  | nil => rfl
  | cons e rest ih =>
      simp only [findMatch, matchOne_empty_registry sys dist e hreg]
      exact ih

/-- C6 (amended): when at least one face is located and at least one
query encoding is computed, recognition against an empty registry always
returns the not-recognized outcome. -/
theorem recognize_face_empty_registry_not_recognized {Img Loc : Type}
    (sys : FaceRecognitionSystem) (O : FaceOracle Img Loc)
    (dist : List ℚ → List ℚ → ℚ) (image : Img)
    (hreg : sys.known_face_encodings = [])
    (hloc : O.face_locations image ≠ [])
    (henc : O.face_encodings image (O.face_locations image) ≠ []) :
    recognize_face sys O dist image = (none, "Face not recognized") := by
  rcases hl : O.face_locations image with - | ⟨l0, rest⟩
  · exact absurd hl hloc
  · rw [hl] at henc
    have hemp : ¬((O.face_encodings image (l0 :: rest)).isEmpty = true) := by
      simpa [List.isEmpty_iff] using henc
    simp only [recognize_face, hl]
    rw [if_neg hemp, findMatch_empty_registry sys dist hreg]

/-- Counterexample for C6 as stated: with a face located but feature
extraction failing, recognition against the empty initial registry
returns the extraction-failure reason, not the not-recognized reason. -/
theorem recognize_face_empty_registry_counterexample :
    FaceRecognitionSystem.init.known_face_encodings = [] ∧
    extractFailOracle.face_locations () ≠ [] ∧
    recognize_face FaceRecognitionSystem.init extractFailOracle constDist () =
      (none, "Could not extract face features") ∧
    "Could not extract face features" ≠ "Face not recognized" := by
  refine ⟨rfl, by simp [extractFailOracle], rfl, by decide⟩

/-- Witness for C6 (amended): one face located, one encoding computed,
empty registry ⇒ not recognized. -/
theorem recognize_face_empty_registry_not_recognized_witness :
    recognize_face FaceRecognitionSystem.init oneFaceOracle constDist () =
      (none, "Face not recognized") :=
  recognize_face_empty_registry_not_recognized FaceRecognitionSystem.init
    oneFaceOracle constDist () rfl (by simp [oneFaceOracle])
    (by simp [oneFaceOracle])

/-- The per-employee load step, expressed through the skip-or-parse
outcome. -/
theorem loadStep_eq (parse : String → Option (List ℚ))
    (sys : FaceRecognitionSystem) (employee : Employee) :
    loadStep parse sys employee =
      match parsedEncoding parse employee with
      | none => sys
      | some encoding =>
          { sys with
            known_face_encodings := sys.known_face_encodings ++ [encoding]
            known_face_names := sys.known_face_names ++ [employee.username] } := by
  unfold loadStep parsedEncoding
  rcases hfe : employee.face_encoding with - | s
  · rfl
  · dsimp only
    split_ifs with hs
    · rfl
    · cases parse s <;> rfl

/-- The load fold appends the parsed registry entries to the
accumulator. -/
theorem load_foldl (parse : String → Option (List ℚ)) (employees : List Employee) :
    ∀ sys0 : FaceRecognitionSystem,
    List.foldl (loadStep parse) sys0 employees =
      ⟨sys0.known_face_encodings ++ employees.filterMap (parsedEncoding parse),
        sys0.known_face_names ++ (employees.filter
          (fun emp => (parsedEncoding parse emp).isSome)).map Employee.username,
        sys0.tolerance⟩ := by
  induction employees with
  | nil =>
      intro sys0
      simp
  | cons emp rest ih =>
      intro sys0
      rw [List.foldl_cons, ih (loadStep parse sys0 emp), loadStep_eq]
      cases hp : parsedEncoding parse emp with
      | none => simp [List.filterMap_cons, List.filter_cons, hp]
      | some encoding => simp [List.filterMap_cons, List.filter_cons, hp]

/-- Lengths of the parsed-encodings list and the kept-employees list
agree. -/
theorem length_filterMap_eq_length_filter {α β : Type} (f : α → Option β)
    (l : List α) :
    (l.filterMap f).length = (l.filter (fun a => (f a).isSome)).length := by
  induction l with
  | nil => rfl
  | cons a ls ih => cases h : f a <;> simp [List.filterMap_cons, List.filter_cons, h, ih]

/-- A successful per-encoding match returns an index inside the
registry. -/
theorem matchOne_some_lt (sys : FaceRecognitionSystem)
    (dist : List ℚ → List ℚ → ℚ) (e : List ℚ) (i : ℕ) (d : ℚ)
    (h : matchOne sys dist e = some (i, d)) :
    i < sys.known_face_encodings.length := by
  simp only [matchOne] at h
  by_cases ht : true ∈ compare_faces dist sys.known_face_encodings e sys.tolerance
  · rw [if_pos ht] at h
    by_cases hf : (compare_faces dist sys.known_face_encodings e sys.tolerance).getD
        (argmin (face_distance dist sys.known_face_encodings e)) false = true
    · rw [if_pos hf] at h
      have hne : face_distance dist sys.known_face_encodings e ≠ [] := by
        intro h0
        rw [true_mem_compare_faces, h0] at ht
        simp at ht
      have hlt := argmin_lt_length _ hne
      have hi : argmin (face_distance dist sys.known_face_encodings e) = i := by
        simpa using congrArg (fun o => (Option.map Prod.fst o).getD 0) h
      rw [← hi]
      simpa [face_distance] using hlt
    · rw [if_neg hf] at h
      simp at h
  · rw [if_neg ht] at h
    simp at h

/-- A successful match loop returns an index inside the registry. -/
theorem findMatch_some_lt (sys : FaceRecognitionSystem)
    (dist : List ℚ → List ℚ → ℚ) (es : List (List ℚ)) (i : ℕ) (d : ℚ)
    (h : findMatch sys dist es = some (i, d)) :
    i < sys.known_face_encodings.length := by
  induction es with
  | nil => simp [findMatch] at h
  | cons e rest ih =>
      simp only [findMatch] at h
      cases hm : matchOne sys dist e with
      | some r =>
          rw [hm] at h
          simp only [Option.some.injEq] at h
          exact matchOne_some_lt sys dist e i d (by rw [hm, h])
      | none =>
          rw [hm] at h
          exact ih h

/-- A recognized username always comes from the registry name list. -/
theorem recognize_face_some_username {Img Loc : Type}
    (sys : FaceRecognitionSystem) (O : FaceOracle Img Loc)
    (dist : List ℚ → List ℚ → ℚ) (image : Img) (m : FaceMatch Loc) (msg : String)
    (hlen : sys.known_face_encodings.length ≤ sys.known_face_names.length)
    (h : recognize_face sys O dist image = (some m, msg)) :
    m.username ∈ sys.known_face_names := by
  rcases hl : O.face_locations image with - | ⟨l0, rest⟩
  · simp only [recognize_face, hl] at h
    simp at h
  · simp only [recognize_face, hl] at h
    by_cases hemp : (O.face_encodings image (l0 :: rest)).isEmpty = true
    · rw [if_pos hemp] at h
      simp at h
    · rw [if_neg hemp] at h
      cases hf : findMatch sys dist
          ((O.face_encodings image (l0 :: rest)).map Subtype.val) with
      | none =>
          rw [hf] at h
          simp at h
      | some r =>
          obtain ⟨i, d⟩ := r
          rw [hf] at h
          simp only [Prod.mk.injEq, Option.some.injEq] at h
          obtain ⟨hm, -⟩ := h
          have hi : i < sys.known_face_encodings.length :=
            findMatch_some_lt sys dist _ i d hf
          have hi' : i < sys.known_face_names.length := lt_of_lt_of_le hi hlen
          rw [← hm]
          rw [show ({ username := sys.known_face_names.getD i ""
                      confidence := 1 - d
                      face_location := l0 } : FaceMatch Loc).username =
              sys.known_face_names.getD i "" from rfl]
          rw [List.getD_eq_getElem _ _ hi']
          exact List.getElem_mem hi'

/-- C8: `load_known_faces` rebuilds the registry exactly from the
parsable entries of the supplied collection, independently of any prior
registry contents, and a subsequent recognition can only name one of the
freshly loaded identities. -/
theorem load_known_faces_replaces_registry (parse : String → Option (List ℚ))
    (sys sys' : FaceRecognitionSystem) (employees : List Employee) :
    (load_known_faces parse sys employees =
      { known_face_encodings := employees.filterMap (parsedEncoding parse)
        known_face_names := (employees.filter
          (fun emp => (parsedEncoding parse emp).isSome)).map Employee.username
        tolerance := sys.tolerance })
  ∧ ((load_known_faces parse sys employees).known_face_encodings =
      (load_known_faces parse sys' employees).known_face_encodings)
  ∧ ((load_known_faces parse sys employees).known_face_names =
      (load_known_faces parse sys' employees).known_face_names)
  ∧ (∀ (Img Loc : Type) (O : FaceOracle Img Loc)
      (dist : List ℚ → List ℚ → ℚ) (image : Img) (m : FaceMatch Loc) (msg : String),
      recognize_face (load_known_faces parse sys employees) O dist image =
        (some m, msg) →
      m.username ∈ (employees.filter
        (fun emp => (parsedEncoding parse emp).isSome)).map Employee.username) := by
  have hload : ∀ s : FaceRecognitionSystem, load_known_faces parse s employees =
      ⟨employees.filterMap (parsedEncoding parse),
        (employees.filter
          (fun emp => (parsedEncoding parse emp).isSome)).map Employee.username,
        s.tolerance⟩ := by
    intro s
    unfold load_known_faces
    rw [load_foldl]
    simp
  refine ⟨hload sys, by rw [hload sys, hload sys'], by rw [hload sys, hload sys'], ?_⟩
  intro Img Loc O dist image m msg hrec
  have hlen : (load_known_faces parse sys employees).known_face_encodings.length ≤
      (load_known_faces parse sys employees).known_face_names.length := by
    rw [hload sys]
    simp only [List.length_map]
    rw [length_filterMap_eq_length_filter]
  have hmem := recognize_face_some_username _ O dist image m msg hlen hrec
  rw [hload sys] at hmem
  exact hmem

/-- Witness for C8: loading a one-entry collection and recognizing with
a zero-distance oracle names exactly the loaded identity. -/
theorem load_known_faces_replaces_registry_witness :
    "alice" ∈ (([{ username := "alice", face_encoding := some "[1]" }] :
        List Employee).filter
      (fun emp => (parsedEncoding parseOne emp).isSome)).map Employee.username := by
  have h0 : (0 : ℚ) ≤ 3 / 5 := by norm_num
  have hrec : recognize_face
      (load_known_faces parseOne FaceRecognitionSystem.init
        [{ username := "alice", face_encoding := some "[1]" }])
      oneFaceOracle (fun _ _ => 0) () =
      (some { username := "alice", confidence := 1 - 0, face_location := () },
        "Face recognized successfully") := by
    simp [recognize_face, load_known_faces, loadStep, parseOne,
      FaceRecognitionSystem.init, oneFaceOracle, findMatch, matchOne, compare_faces,
      face_distance, argmin, h0]
  exact (load_known_faces_replaces_registry parseOne FaceRecognitionSystem.init
      FaceRecognitionSystem.init
      [{ username := "alice", face_encoding := some "[1]" }]).2.2.2
    Unit Unit oneFaceOracle (fun _ _ => 0) ()
    { username := "alice", confidence := 1 - 0, face_location := () }
    "Face recognized successfully" hrec

/-! ## Theorems: rendering utilities -/

/-- Counterexample for C9 as stated: with drawing primitives that change
the buffer, `draw_face_rectangle` leaves the caller's buffer mutated
(three drawing operations applied in place), not equal to the original
contents. -/
theorem draw_face_rectangle_mutates_counterexample :
    (draw_face_rectangle countingCv2 0 (0, 0, 0, 0) "worker" 0).2 ≠ 0 := by
  decide

/-- C9 (amended): `draw_detections` draws on a copy and leaves the
caller's buffer unchanged, while `draw_face_rectangle` draws in place, so
after the call the caller's buffer holds exactly the annotated image it
returns. -/
theorem draw_utilities_buffer_effects {Img : Type} (cv : Cv2Prims Img)
    (image : Img) (detections : List Detection)
    (face_location : ℤ × ℤ × ℤ × ℤ) (name : String) (confidence : ℚ) :
    (draw_detections cv image detections).2 = image ∧
    (draw_face_rectangle cv image face_location name confidence).2 =
      (draw_face_rectangle cv image face_location name confidence).1 :=
  ⟨rfl, rfl⟩

/-- Witness for C9 (amended): buffer effects evaluated on the counting
primitives. -/
theorem draw_utilities_buffer_effects_witness :
    (draw_detections countingCv2 0 []).2 = 0 ∧
    (draw_face_rectangle countingCv2 0 (0, 0, 0, 0) "worker" 0).2 =
      (draw_face_rectangle countingCv2 0 (0, 0, 0, 0) "worker" 0).1 :=
  draw_utilities_buffer_effects countingCv2 0 [] (0, 0, 0, 0) "worker" 0

end Intelliguard
